import Mathlib

/-!
Verification development for the cricket-point-scorer repository.

The repository's algorithmic core (ScoreCalculator, SquadValidator,
Best11Selector, LeaderboardAggregator) is specified in the design document;
the presentation layer (React components) is in the frontend sources.
Core definitions below are modelled from the spec; frontend definitions are
translated from the TSX sources.
-/

namespace Cricket

/-- Modelled from the spec: the closed set of player roles
(`WicketKeeper`, `Batsman`, `Bowler`, `AllRounder`). -/
inductive Role where
  | WicketKeeper
  | Batsman
  | AllRounder
  | Bowler
deriving DecidableEq

/-- Modelled from the spec: one player's raw performance in a match.
Raw numeric fields may be negative (malformed scraper output); they are
clamped to zero by `clampStat` before scoring. -/
structure PlayerStat where
  name : String
  role : Role
  runs : Int
  balls_faced : Int
  fours : Int
  sixes : Int
  wickets : Int
  maidens : Int
  overs_bowled : Int
  runs_conceded : Int
  catches : Int
deriving DecidableEq

/-- Clamp one raw integer field to be non-negative. -/
def clampInt (x : Int) : Int := if x < 0 then 0 else x

/-- Modelled from the spec: malformed negative inputs are clamped to zero
before scoring. -/
def clampStat (s : PlayerStat) : PlayerStat :=
  { s with
    runs := clampInt s.runs
    balls_faced := clampInt s.balls_faced
    fours := clampInt s.fours
    sixes := clampInt s.sixes
    wickets := clampInt s.wickets
    maidens := clampInt s.maidens
    overs_bowled := clampInt s.overs_bowled
    runs_conceded := clampInt s.runs_conceded
    catches := clampInt s.catches }

/-- Modelled from the spec: cumulative milestone bonus — crossing 30 runs
adds +4, crossing 50 a further +4, crossing 100 a further +8; bonuses stack. -/
def milestoneBonus (runs : Int) : ℚ :=
  (if 30 ≤ runs then 4 else 0) + (if 50 ≤ runs then 4 else 0) +
    (if 100 ≤ runs then 8 else 0)

/-- Modelled from the spec: the strike-rate expression
`SR = runs / balls_faced * 100`, evaluated only when `balls_faced ≥ 10`
(insufficient sample is not evaluated, so no division is performed then). -/
def srOpt (s : PlayerStat) : Option ℚ :=
  if 10 ≤ s.balls_faced then some ((s.runs : ℚ) / (s.balls_faced : ℚ) * 100)
  else none

/-- Modelled from the spec: the strike-rate bonus tiers — if `SR > 250`: +10,
else if `SR > 200`: +6; tiers are mutually exclusive, only the highest
satisfied tier applies. -/
def srTierBonus (s : PlayerStat) : ℚ :=
  match srOpt s with
  | none => 0
  | some sr => if 250 < sr then 10 else if 200 < sr then 6 else 0

/-- Modelled from the spec: the low strike-rate penalty — if `SR < 100` and
`balls_faced ≥ 15`: −6, waived entirely for role `Bowler`. -/
def srPenalty (s : PlayerStat) : ℚ :=
  match srOpt s with
  | none => 0
  | some sr =>
    if sr < 100 ∧ 15 ≤ s.balls_faced ∧ s.role ≠ Role.Bowler then -6 else 0

/-- Modelled from the spec: the full strike-rate modifier (tier bonus plus
low-strike-rate penalty). -/
def srModifier (s : PlayerStat) : ℚ := srTierBonus s + srPenalty s

/-- Modelled from the spec: batting sub-score — applies if runs or
balls_faced > 0; base `runs * 1`, boundary bonus `fours * 1 + sixes * 2`,
milestone bonus, strike-rate modifier. -/
def battingScore (s : PlayerStat) : ℚ :=
  if 0 < s.runs ∨ 0 < s.balls_faced then
    (s.runs : ℚ) + ((s.fours : ℚ) * 1 + (s.sixes : ℚ) * 2) +
      milestoneBonus s.runs + srModifier s
  else 0

/-- Modelled from the spec: the economy expression
`economy = runs_conceded / overs_bowled`, evaluated only when
`overs_bowled ≥ 2`. -/
def economyOpt (s : PlayerStat) : Option ℚ :=
  if 2 ≤ s.overs_bowled then some ((s.runs_conceded : ℚ) / (s.overs_bowled : ℚ))
  else none

/-- Modelled from the spec: economy modifier — `economy < 5`: +10,
`economy > 9`: −15, between 5 and 9 inclusive: no modifier. -/
def economyModifier (s : PlayerStat) : ℚ :=
  match economyOpt s with
  | none => 0
  | some e => if e < 5 then 10 else if 9 < e then -15 else 0

/-- Modelled from the spec: bowling sub-score — applies if wickets, maidens,
or overs_bowled > 0; `wickets * 25 + maidens * 8` plus economy modifier. -/
def bowlingScore (s : PlayerStat) : ℚ :=
  if 0 < s.wickets ∨ 0 < s.maidens ∨ 0 < s.overs_bowled then
    (s.wickets : ℚ) * 25 + (s.maidens : ℚ) * 8 + economyModifier s
  else 0

/-- Modelled from the spec: fielding sub-score `catches * 8`, applies
regardless of role. -/
def fieldingScore (s : PlayerStat) : ℚ := (s.catches : ℚ) * 8

/-- Modelled from the spec: derived per-player score with breakdown of
sub-scores and the final total. -/
structure PlayerScore where
  name : String
  role : Role
  batting : ℚ
  bowling : ℚ
  fielding : ℚ
  total_score : ℚ
deriving DecidableEq

/-- Modelled from the spec: `score(stat) -> PlayerScore`, pure and total;
negative inputs clamped to zero first; the final total is the sum of all
applicable sub-scores, clamped to zero if penalties exceed earned points. -/
def score (stat : PlayerStat) : PlayerScore :=
  let s := clampStat stat
  let raw := battingScore s + bowlingScore s + fieldingScore s
  { name := s.name
    role := s.role
    batting := battingScore s
    bowling := bowlingScore s
    fielding := fieldingScore s
    total_score := if raw < 0 then 0 else raw }

/-- Modelled from the spec: a participant-owned roster slot — player name,
assigned role, inactive-reserve flag. -/
structure SquadEntry where
  player_name : String
  role : Role
  is_IR : Bool
deriving DecidableEq

/-- Modelled from the spec: a squad is an ordered sequence of entries for one
participant. -/
abbrev Squad := List SquadEntry

/-- Modelled from the spec: the squad-composition error taxonomy
(oversize, duplicate player, missing/extra IR). -/
inductive ValidationError where
  | oversize
  | duplicateName
  | irRule
deriving DecidableEq

/-- The case-insensitive name keys of a squad. -/
def lowerNames (sq : Squad) : List String := sq.map (fun e => e.player_name.toLower)

/-- Number of entries flagged as inactive reserve. -/
def irCount (sq : Squad) : Nat := sq.countP (fun e => e.is_IR)

/-- Modelled from the spec: `validate(squad) -> Ok | ValidationError` —
size ≤ 19; no duplicate names (case-insensitive); if size == 19 exactly one
`is_IR` entry; if size < 19 zero or one IR entries permitted. -/
def validate (sq : Squad) : Except ValidationError Unit :=
  if 19 < sq.length then .error .oversize
  else if ¬ (lowerNames sq).Nodup then .error .duplicateName
  else if sq.length = 19 then
    if irCount sq = 1 then .ok () else .error .irRule
  else if irCount sq ≤ 1 then .ok () else .error .irRule

/-- Modelled from the spec: IR entries are excluded from the eligible pool
entirely. -/
def eligibleEntries (sq : Squad) : Squad := sq.filter (fun e => !e.is_IR)

/-- The eligible entries of one role. -/
def roleEntries (sq : Squad) (r : Role) : Squad :=
  (eligibleEntries sq).filter (fun e => decide (e.role = r))

/-- Score of one squad entry under a name-to-total mapping. -/
def entryScore (scores : String → ℚ) (e : SquadEntry) : ℚ := scores e.player_name

/-- Descending-score ordering on squad entries (used for the per-role sort). -/
abbrev scoreDescRel (scores : String → ℚ) (x y : SquadEntry) : Prop :=
  entryScore scores y ≤ entryScore scores x

/-- Modelled from the spec: within each role, player scores sorted descending
(stable insertion sort, ties broken by original squad order). -/
def sortedRole (sq : Squad) (scores : String → ℚ) (r : Role) : Squad :=
  List.insertionSort (scoreDescRel scores) (roleEntries sq r)

/-- Modelled from the spec: score of taking the top-k players of a role
(the per-role prefix-sum query). -/
def takeScore (scores : String → ℚ) (l : Squad) (k : Nat) : ℚ :=
  ((l.take k).map (entryScore scores)).sum

/-- Number of eligible players available in a role. -/
def roleCount (sq : Squad) (r : Role) : Nat := (roleEntries sq r).length

/-- Modelled from the spec: role quotas for the 11-player lineup —
WicketKeeper 1–4, Batsman 3–6, AllRounder 1–4, Bowler 3–6, counts summing
to exactly 11. -/
def quotaOK (w b a o : Nat) : Prop :=
  1 ≤ w ∧ w ≤ 4 ∧ 3 ≤ b ∧ b ≤ 6 ∧ 1 ≤ a ∧ a ≤ 4 ∧ 3 ≤ o ∧ o ≤ 6 ∧
    w + b + a + o = 11

instance (w b a o : Nat) : Decidable (quotaOK w b a o) := by
  unfold quotaOK; infer_instance

/-- Every quota tuple `(w, b, a, o)` in the enumeration ranges. -/
def quotaTuples : List (Nat × Nat × Nat × Nat) :=
  (((List.range 5).flatMap fun w => (List.range 7).flatMap fun b =>
      (List.range 5).flatMap fun a => (List.range 7).map fun o =>
        (w, b, a, o)).filter fun t => decide (quotaOK t.1 t.2.1 t.2.2.1 t.2.2.2))

/-- Modelled from the spec: the quota tuples that are feasible for a squad —
each component not exceeding that role's available eligible count. -/
def feasibleTuples (sq : Squad) : List (Nat × Nat × Nat × Nat) :=
  quotaTuples.filter fun t =>
    decide (t.1 ≤ roleCount sq .WicketKeeper ∧ t.2.1 ≤ roleCount sq .Batsman ∧
      t.2.2.1 ≤ roleCount sq .AllRounder ∧ t.2.2.2 ≤ roleCount sq .Bowler)

/-- Modelled from the spec: the total obtained by a feasible tuple, i.e. the
sum of the four per-role prefix-sum queries. -/
def tupleValue (sq : Squad) (scores : String → ℚ) (t : Nat × Nat × Nat × Nat) : ℚ :=
  takeScore scores (sortedRole sq scores .WicketKeeper) t.1 +
    takeScore scores (sortedRole sq scores .Batsman) t.2.1 +
    takeScore scores (sortedRole sq scores .AllRounder) t.2.2.1 +
    takeScore scores (sortedRole sq scores .Bowler) t.2.2.2

/-- Modelled from the spec: the chosen 11 entries, their summed score, and
the excluded-player set. -/
structure Best11Result where
  entries : List SquadEntry
  total : ℚ
  excluded : List SquadEntry

/-- The lineup formed by a quota tuple: the winning tuple's top-k selections
per role, concatenated. -/
def tupleLineup (sq : Squad) (scores : String → ℚ)
    (t : Nat × Nat × Nat × Nat) : List SquadEntry :=
  (sortedRole sq scores .WicketKeeper).take t.1 ++
    (sortedRole sq scores .Batsman).take t.2.1 ++
    (sortedRole sq scores .AllRounder).take t.2.2.1 ++
    (sortedRole sq scores .Bowler).take t.2.2.2

/-- Modelled from the spec: Best11Selector's `select` — enumerate every
feasible quota tuple, keep one of maximal prefix-sum value, and return its
top-k selections; fails (returns `none`, the `InsufficientDataError` case)
if no tuple is feasible. -/
def select (sq : Squad) (scores : String → ℚ) : Option Best11Result :=
  match (feasibleTuples sq).argmax (tupleValue sq scores) with
  | none => none
  | some t =>
    let chosen := tupleLineup sq scores t
    some { entries := chosen
           total := (chosen.map (entryScore scores)).sum
           excluded := (eligibleEntries sq).filter fun e => decide (e ∉ chosen) }

/-- Modelled from the spec: a persisted leaderboard record for one
participant and one gameweek (the cumulative view is derived, not stored). -/
structure LBEntry where
  pid : Nat
  gw : Nat
  gw_points : ℚ
deriving DecidableEq

/-- Modelled from the spec: persist/replace the entry for (participant, gw) —
reprocessing overwrites the stored value rather than adding to it. -/
def upsertEntry (e : LBEntry) : List LBEntry → List LBEntry
  | [] => [e]
  | x :: xs =>
    if x.pid = e.pid ∧ x.gw = e.gw then e :: xs else x :: upsertEntry e xs

/-- Lookup of the stored entry for (participant, gw). -/
def findEntry (pid gw : Nat) (store : List LBEntry) : Option LBEntry :=
  store.find? fun x => decide (x.pid = pid ∧ x.gw = gw)

/-- Modelled from the spec: per-match scores merged for the same player name
(case-insensitive) across matches within the gameweek by summation. -/
def mergeScores (matchStats : List (List PlayerStat)) : String → ℚ :=
  fun nm =>
    (matchStats.map fun ms =>
      ((ms.filter fun st => st.name.toLower == nm.toLower).map
        fun st => (score st).total_score).sum).sum

/-- Modelled from the spec: a participant's gameweek points — validate the
squad (skip on failure), then run Best11Selector on the merged scores. -/
def gwPointsFor (squads : Nat → Squad) (scores : String → ℚ) (pid : Nat) :
    Option ℚ :=
  match validate (squads pid) with
  | .ok _ => (select (squads pid) scores).map Best11Result.total
  | .error _ => none

/-- Process the participant list in order, upserting each computed entry. -/
def processParticipants (gw : Nat) (f : Nat → Option ℚ) :
    List Nat → List LBEntry → List LBEntry
  | [], store => store
  | p :: ps, store =>
    processParticipants gw f ps
      (match f p with
       | some v => upsertEntry ⟨p, gw, v⟩ store
       | none => store)

/-- Modelled from the spec: `processGameweek` — score every match's stat
list, merge per player, validate each participant's squad, select the
best 11, and persist/replace each (participant, gw) entry. -/
def processGameweek (gw : Nat) (matchStats : List (List PlayerStat))
    (participants : List Nat) (squads : Nat → Squad)
    (store : List LBEntry) : List LBEntry :=
  processParticipants gw (gwPointsFor squads (mergeScores matchStats))
    participants store

/-- Modelled from the spec: cumulative points recomputed as the sum of
gw_points over all gameweeks with a stored entry for that participant. -/
def cumulativePoints (store : List LBEntry) (pid : Nat) : ℚ :=
  ((store.filter fun e => decide (e.pid = pid)).map LBEntry.gw_points).sum

/-- Player record consumed by the presentation layer
(src/frontend/src/components/PlayerCard.tsx, Leaderboard.tsx). -/
structure FrontPlayer where
  name : String
  role : String
  total_score : ℚ

/-- From src/frontend/src/components/PlayerCard.tsx line 40: the points shown
are `player.total_score.toFixed(1)`; `toFixed(1)` picks the integer n
minimising `|n / 10 - x|`, the larger n on ties. -/
def playerCardDisplayedScore (p : FrontPlayer) : ℚ :=
  ((⌊p.total_score * 10 + 1 / 2⌋ : ℤ) : ℚ) / 10

/-- From src/frontend/src/components/Leaderboard.tsx line 34: the points cell
renders `player.total_score` unmodified. -/
def leaderboardDisplayedScore (p : FrontPlayer) : ℚ := p.total_score

/-- From the spec's words: total_score "rounded to one decimal place". -/
def roundToOneDecimal (q : ℚ) : ℚ := ((round (10 * q) : ℤ) : ℚ) / 10

/-- From src/frontend/src/pages/AdminDashboard.tsx: the request body posted
to `/gameweek/process`. -/
structure ProcessRequest where
  gameweek : Nat
  match_urls : List String
deriving DecidableEq

/-- Split a character list at each newline, keeping empty segments, as
JavaScript `split('\n')` does. -/
def splitLinesChars : List Char → List (List Char)
  | [] => [[]]
  | c :: cs =>
    if c = '\n' then [] :: splitLinesChars cs
    else
      match splitLinesChars cs with
      | [] => [[c]]
      | l :: ls => (c :: l) :: ls

/-- From src/frontend/src/pages/AdminDashboard.tsx line 15: the textarea is
split on newlines — `urls.split('\n')`. -/
def splitLines (s : String) : List String :=
  (splitLinesChars s.data).map fun l => String.mk l

/-- JavaScript `trim()`: remove leading and trailing whitespace. -/
def jsTrim (s : String) : String :=
  String.mk
    (((s.data.dropWhile Char.isWhitespace).reverse.dropWhile
        Char.isWhitespace).reverse)

/-- From src/frontend/src/pages/AdminDashboard.tsx line 15: the lines kept by
`.filter(u => u.trim())` — those whose trimmed form is non-empty (the empty
string is falsy in JavaScript). -/
def keptUrls (urls : String) : List String :=
  (splitLines urls).filter fun u => decide (jsTrim u ≠ "")

/-- From src/frontend/src/pages/AdminDashboard.tsx lines 11–27: handleProcess
posts `{gameweek, match_urls}` unless the kept URL list is empty, in which
case it returns without issuing a request. -/
def handleProcess (gw : Nat) (urls : String) : Option ProcessRequest :=
  if (keptUrls urls).isEmpty then none else some ⟨gw, keptUrls urls⟩

end Cricket

section ScenarioChecks

open Cricket

example :
    (score ⟨"a", Role.Batsman, 55, 40, 6, 2, 0, 0, 0, 0, 0⟩).total_score = 73 := by
  norm_num [score, clampStat, clampInt, battingScore, bowlingScore, fieldingScore,
    milestoneBonus, srModifier, srTierBonus, srPenalty, srOpt]

example :
    (score ⟨"b", Role.Bowler, 0, 0, 0, 0, 3, 1, 4, 18, 2⟩).total_score = 109 := by
  norm_num [score, clampStat, clampInt, battingScore, bowlingScore, fieldingScore,
    milestoneBonus, srModifier, srTierBonus, srPenalty, srOpt, economyModifier,
    economyOpt]

end ScenarioChecks

namespace Cricket

theorem clampInt_idem (x : Int) : clampInt (clampInt x) = clampInt x := by
  unfold clampInt
  split <;> simp_all

theorem clampStat_idem (s : PlayerStat) :
    clampStat (clampStat s) = clampStat s := by
  simp [clampStat, clampInt_idem]

theorem clampInt_nonneg (x : Int) : 0 ≤ clampInt x := by
  unfold clampInt; split <;> omega

/-- Claim C2: for every PlayerStat input (including negative raw fields),
`score` is total, clamps negative inputs to zero before scoring, and the
resulting total_score is never negative. -/
theorem claim_C2 (stat : PlayerStat) :
    score stat = score (clampStat stat) ∧ 0 ≤ (score stat).total_score := by
  constructor
  · simp [score, clampStat_idem]
  · show (0 : ℚ) ≤ if _ < 0 then 0 else _
    split
    · exact le_refl 0
    · linarith [not_lt.mp (by assumption : ¬ _ < (0 : ℚ))]

/-- Claim C4: a Batsman with 55 runs off 40 balls, 6 fours and 2 sixes gets
batting sub-score 55 + (6 + 4) + (4 + 4) = 73, strike rate 137.5 with no
strike-rate modifier, and total_score 73; the 30- and 50-run milestone
bonuses both apply and stack. -/
theorem claim_C4 :
    (score ⟨"a", Role.Batsman, 55, 40, 6, 2, 0, 0, 0, 0, 0⟩).batting = 73 ∧
    srOpt (clampStat ⟨"a", Role.Batsman, 55, 40, 6, 2, 0, 0, 0, 0, 0⟩) =
      some (275 / 2) ∧
    srModifier (clampStat ⟨"a", Role.Batsman, 55, 40, 6, 2, 0, 0, 0, 0, 0⟩) = 0 ∧
    milestoneBonus 55 = 4 + 4 ∧
    (score ⟨"a", Role.Batsman, 55, 40, 6, 2, 0, 0, 0, 0, 0⟩).total_score = 73 := by
  norm_num [score, clampStat, clampInt, battingScore, bowlingScore, fieldingScore,
    milestoneBonus, srModifier, srTierBonus, srPenalty, srOpt]

/-- Claim C5: with at least 10 balls faced, the strike-rate modifier applies
at most one tier — exactly +10 when SR > 250 (the +6 tier is not additionally
awarded), and exactly +6 when 200 < SR ≤ 250. -/
theorem claim_C5 (s : PlayerStat) (sr : ℚ)
    (hsr : srOpt (clampStat s) = some sr) :
    (250 < sr → srModifier (clampStat s) = 10) ∧
    (sr ≤ 250 → 200 < sr → srModifier (clampStat s) = 6) := by
  have hmod : srModifier (clampStat s) =
      (if 250 < sr then 10 else if 200 < sr then 6 else 0) +
        (if sr < 100 ∧ 15 ≤ (clampStat s).balls_faced ∧
            (clampStat s).role ≠ Role.Bowler then -6 else 0) := by
    simp only [srModifier, srTierBonus, srPenalty, hsr]
  rw [hmod]
  constructor
  · intro h
    rw [if_pos h, if_neg (fun hc => absurd hc.1 (by linarith))]
    norm_num
  · intro h h'
    rw [if_neg (not_lt.mpr h), if_pos h',
      if_neg (fun hc => absurd hc.1 (by linarith))]
    norm_num

/-- Witness for claim C5 at a concrete input: 30 runs off 10 balls is a
strike rate of 300 and earns exactly the +10 tier. -/
theorem claim_C5_witness :
    srModifier (clampStat ⟨"w", Role.Batsman, 30, 10, 0, 0, 0, 0, 0, 0, 0⟩) = 10 :=
  (claim_C5 ⟨"w", Role.Batsman, 30, 10, 0, 0, 0, 0, 0, 0, 0⟩ 300
    (by norm_num [srOpt, clampStat, clampInt])).1 (by norm_num)

/-- Claim C6: with runs = 0 and balls_faced = 0 the batting sub-score is 0
and the strike-rate expression is never evaluated (no division performed). -/
theorem claim_C6 (s : PlayerStat) (h1 : s.runs = 0) (h2 : s.balls_faced = 0) :
    battingScore (clampStat s) = 0 ∧ srOpt (clampStat s) = none := by
  have hr : (clampStat s).runs = 0 := by simp [clampStat, h1, clampInt]
  have hb : (clampStat s).balls_faced = 0 := by simp [clampStat, h2, clampInt]
  constructor
  · have hc : ¬ (0 < (clampStat s).runs ∨ 0 < (clampStat s).balls_faced) := by
      rw [hr, hb]; omega
    rw [battingScore, if_neg hc]
  · have hc : ¬ (10 ≤ (clampStat s).balls_faced) := by rw [hb]; omega
    rw [srOpt, if_neg hc]

/-- Witness for claim C6 at a concrete input. -/
theorem claim_C6_witness :
    battingScore (clampStat ⟨"z", Role.Bowler, 0, 0, 0, 0, 2, 0, 1, 9, 0⟩) = 0 ∧
    srOpt (clampStat ⟨"z", Role.Bowler, 0, 0, 0, 0, 2, 0, 1, 9, 0⟩) = none :=
  claim_C6 ⟨"z", Role.Bowler, 0, 0, 0, 0, 2, 0, 1, 9, 0⟩ rfl rfl

/-- Claim C8: `validate` returns Ok exactly when the squad has size at most
19, no two entries share a player name up to case, exactly one IR entry if
the size is 19, and at most one IR entry if the size is below 19. -/
theorem claim_C8 (sq : Squad) :
    validate sq = .ok () ↔
      (sq.length ≤ 19 ∧ (lowerNames sq).Nodup ∧
        (sq.length = 19 → irCount sq = 1) ∧
        (sq.length < 19 → irCount sq ≤ 1)) := by
  unfold validate
  split_ifs with h1 h2 h3 h4 <;> first
    | (simp_all; omega)
    | simp_all

/-- Claim C3 as stated is false: with 0 runs off 15 balls (SR = 0 < 100,
balls_faced ≥ 15) the batsman's −6 penalty is swallowed by the clamp of the
final total to zero, so both role variants score 0 and the totals do not
differ by 6. -/
theorem claim_C3_counterexample :
    srOpt (clampStat ⟨"p", Role.Batsman, 0, 15, 0, 0, 0, 0, 0, 0, 0⟩) = some 0 ∧
    (15 : Int) ≤ (clampStat ⟨"p", Role.Batsman, 0, 15, 0, 0, 0, 0, 0, 0, 0⟩).balls_faced ∧
    (score ⟨"p", Role.Bowler, 0, 15, 0, 0, 0, 0, 0, 0, 0⟩).total_score = 0 ∧
    (score ⟨"p", Role.Batsman, 0, 15, 0, 0, 0, 0, 0, 0, 0⟩).total_score = 0 ∧
    (score ⟨"p", Role.Bowler, 0, 15, 0, 0, 0, 0, 0, 0, 0⟩).total_score ≠
      (score ⟨"p", Role.Batsman, 0, 15, 0, 0, 0, 0, 0, 0, 0⟩).total_score + 6 := by
  have hrole : ¬ (Role.Batsman = Role.Bowler) := by decide
  norm_num [score, clampStat, clampInt, battingScore, bowlingScore, fieldingScore,
    milestoneBonus, srModifier, srTierBonus, srPenalty, srOpt, economyModifier,
    economyOpt, hrole]

/-- Claim C3 (amended): for stat sets differing only in role with SR < 100
and balls_faced ≥ 15, the bowler's score omits the −6 penalty and the
batsman's includes it; the totals differ by exactly 6 provided the bowler's
total is at least 6 (otherwise the zero-clamp of the final total shrinks the
difference). -/
theorem claim_C3_amended (s : PlayerStat) (sr : ℚ)
    (hsr : srOpt (clampStat s) = some sr) (hlow : sr < 100)
    (hballs : 15 ≤ (clampStat s).balls_faced)
    (hmin : 6 ≤ (score { s with role := Role.Bowler }).total_score) :
    srPenalty (clampStat { s with role := Role.Bowler }) = 0 ∧
    srPenalty (clampStat { s with role := Role.Batsman }) = -6 ∧
    (score { s with role := Role.Bowler }).total_score =
      (score { s with role := Role.Batsman }).total_score + 6 := by
  have hcb : clampStat { s with role := Role.Bowler } =
      { clampStat s with role := Role.Bowler } := rfl
  have hct : clampStat { s with role := Role.Batsman } =
      { clampStat s with role := Role.Batsman } := rfl
  have hsrb : srOpt { clampStat s with role := Role.Bowler } = some sr := hsr
  have hsrt : srOpt { clampStat s with role := Role.Batsman } = some sr := hsr
  have hpb : srPenalty { clampStat s with role := Role.Bowler } = 0 := by
    simp only [srPenalty, hsrb]
    rw [if_neg]
    rintro ⟨-, -, hne⟩
    exact hne rfl
  have hpt : srPenalty { clampStat s with role := Role.Batsman } = -6 := by
    simp only [srPenalty, hsrt]
    rw [if_pos ⟨hlow, hballs, by simp⟩]
  have htier : srTierBonus { clampStat s with role := Role.Bowler } =
      srTierBonus { clampStat s with role := Role.Batsman } := by
    simp only [srTierBonus, hsrb, hsrt]
  have happ : 0 < (clampStat s).runs ∨ 0 < (clampStat s).balls_faced :=
    Or.inr (by omega)
  have hbatting : battingScore { clampStat s with role := Role.Bowler } =
      battingScore { clampStat s with role := Role.Batsman } + 6 := by
    simp only [battingScore, srModifier, if_pos happ, htier, hpb, hpt]
    ring
  have hraw : battingScore (clampStat { s with role := Role.Bowler }) +
        bowlingScore (clampStat { s with role := Role.Bowler }) +
        fieldingScore (clampStat { s with role := Role.Bowler }) =
      battingScore (clampStat { s with role := Role.Batsman }) +
        bowlingScore (clampStat { s with role := Role.Batsman }) +
        fieldingScore (clampStat { s with role := Role.Batsman }) + 6 := by
    rw [hcb, hct, hbatting]
    have hbowl : bowlingScore { clampStat s with role := Role.Bowler } =
        bowlingScore { clampStat s with role := Role.Batsman } := rfl
    have hfield : fieldingScore { clampStat s with role := Role.Bowler } =
        fieldingScore { clampStat s with role := Role.Batsman } := rfl
    rw [hbowl, hfield]
    ring
  refine ⟨hcb ▸ hpb, hct ▸ hpt, ?_⟩
  simp only [score] at hmin ⊢
  rw [hraw] at hmin ⊢
  set rb := battingScore (clampStat { s with role := Role.Batsman }) +
    bowlingScore (clampStat { s with role := Role.Batsman }) +
    fieldingScore (clampStat { s with role := Role.Batsman }) with hrb
  by_cases hneg : rb + 6 < 0
  · rw [if_pos hneg] at hmin
    linarith
  · rw [if_neg hneg] at hmin ⊢
    rw [if_neg (by linarith)]

/-- Witness for claim C3 (amended) at a concrete input: 40 runs off 50 balls
(SR = 80), bowler total 44, batsman total 38. -/
theorem claim_C3_witness :
    srPenalty (clampStat { (⟨"w", Role.Batsman, 40, 50, 0, 0, 0, 0, 0, 0, 0⟩ :
        PlayerStat) with role := Role.Bowler }) = 0 ∧
    srPenalty (clampStat { (⟨"w", Role.Batsman, 40, 50, 0, 0, 0, 0, 0, 0, 0⟩ :
        PlayerStat) with role := Role.Batsman }) = -6 ∧
    (score { (⟨"w", Role.Batsman, 40, 50, 0, 0, 0, 0, 0, 0, 0⟩ :
        PlayerStat) with role := Role.Bowler }).total_score =
      (score { (⟨"w", Role.Batsman, 40, 50, 0, 0, 0, 0, 0, 0, 0⟩ :
        PlayerStat) with role := Role.Batsman }).total_score + 6 :=
  claim_C3_amended ⟨"w", Role.Batsman, 40, 50, 0, 0, 0, 0, 0, 0, 0⟩ 80
    (by norm_num [srOpt, clampStat, clampInt]) (by norm_num)
    (by norm_num [clampStat, clampInt])
    (by norm_num [score, clampStat, clampInt, battingScore, bowlingScore,
      fieldingScore, milestoneBonus, srModifier, srTierBonus, srPenalty, srOpt,
      economyModifier, economyOpt])

/-- Claim C9 as stated is false: at total_score 73.25 the PlayerCard shows
the one-decimal rounding 73.3, but the Leaderboard table row renders the raw
value 73.25, which differs from the rounding. -/
theorem claim_C9_counterexample :
    playerCardDisplayedScore ⟨"A", "Batsman", 293 / 4⟩ =
      roundToOneDecimal (293 / 4) ∧
    leaderboardDisplayedScore ⟨"A", "Batsman", 293 / 4⟩ ≠
      roundToOneDecimal (293 / 4) := by
  norm_num [playerCardDisplayedScore, leaderboardDisplayedScore,
    roundToOneDecimal, round_eq]

/-- Claim C9 (amended): the PlayerCard component displays the total rounded
to one decimal place; the Leaderboard table row displays the raw total_score
unrounded. -/
theorem claim_C9_amended (p : FrontPlayer) :
    playerCardDisplayedScore p = roundToOneDecimal p.total_score ∧
    leaderboardDisplayedScore p = p.total_score := by
  refine ⟨?_, rfl⟩
  unfold playerCardDisplayedScore roundToOneDecimal
  rw [round_eq, mul_comm p.total_score 10]

/-- Claim C10: handleProcess issues no request exactly when every line of the
textarea is empty or whitespace; when it posts, the match_urls field is the
sequence of non-whitespace lines in their original order. -/
theorem claim_C10 (gw : Nat) (urls : String) :
    (handleProcess gw urls = none ↔ ∀ u ∈ splitLines urls, jsTrim u = "") ∧
    (∀ r, handleProcess gw urls = some r →
      r.gameweek = gw ∧ r.match_urls = keptUrls urls ∧
      r.match_urls.Sublist (splitLines urls) ∧
      ∀ u ∈ r.match_urls, jsTrim u ≠ "") := by
  constructor
  · unfold handleProcess
    split
    · simp only [true_iff]
      have hnil : keptUrls urls = [] := by
        rwa [← List.isEmpty_iff]
      intro u hu
      by_contra hne
      have : u ∈ keptUrls urls :=
        List.mem_filter.mpr ⟨hu, decide_eq_true hne⟩
      simp [hnil] at this
    · simp only [reduceCtorEq, false_iff]
      intro hall
      have hnil : keptUrls urls = [] := by
        apply List.filter_eq_nil_iff.mpr
        intro u hu
        simp [hall u hu]
      simp [List.isEmpty_iff, hnil] at *
  · intro r h
    unfold handleProcess at h
    split at h
    · exact absurd h (by simp)
    · cases h
      refine ⟨rfl, rfl, List.filter_sublist _, ?_⟩
      intro u hu
      exact of_decide_eq_true (List.mem_filter.mp hu).2

/-- Witness for claim C10 at a concrete input: the textarea "a\n \nb" posts
match_urls = ["a", "b"]. -/
theorem claim_C10_witness :
    (ProcessRequest.mk 1 ["a", "b"]).gameweek = 1 ∧
    (ProcessRequest.mk 1 ["a", "b"]).match_urls = keptUrls "a\n \nb" ∧
    (ProcessRequest.mk 1 ["a", "b"]).match_urls.Sublist (splitLines "a\n \nb") ∧
    ∀ u ∈ (ProcessRequest.mk 1 ["a", "b"]).match_urls, jsTrim u ≠ "" :=
  (claim_C10 1 "a\n \nb").2 ⟨1, ["a", "b"]⟩ (by decide)

theorem findEntry_nil (pid gw : Nat) : findEntry pid gw [] = none := rfl

theorem findEntry_cons (x : LBEntry) (xs : List LBEntry) (pid gw : Nat) :
    findEntry pid gw (x :: xs) =
      if x.pid = pid ∧ x.gw = gw then some x else findEntry pid gw xs := by
  by_cases h : x.pid = pid ∧ x.gw = gw
  · simp [findEntry, List.find?_cons, h]
  · simp [findEntry, List.find?_cons, h]

theorem upsertEntry_lookup_self (e : LBEntry) (s : List LBEntry) :
    findEntry e.pid e.gw (upsertEntry e s) = some e := by
  induction s with
  | nil => simp [upsertEntry, findEntry_cons, findEntry_nil]
  | cons x xs ih =>
    unfold upsertEntry
    split
    · rw [findEntry_cons]
      simp
    · rename_i hne
      rw [findEntry_cons, if_neg hne, ih]

theorem upsertEntry_of_found (e : LBEntry) (s : List LBEntry)
    (h : findEntry e.pid e.gw s = some e) : upsertEntry e s = s := by
  induction s with
  | nil => simp [findEntry_nil] at h
  | cons x xs ih =>
    rw [findEntry_cons] at h
    unfold upsertEntry
    split
    · rename_i hm
      rw [if_pos hm] at h
      cases h
      rfl
    · rename_i hm
      rw [if_neg hm] at h
      rw [ih h]

theorem findEntry_upsert (e : LBEntry) (pid gw : Nat) (s : List LBEntry) :
    findEntry pid gw (upsertEntry e s) =
      if e.pid = pid ∧ e.gw = gw then some e else findEntry pid gw s := by
  induction s with
  | nil => simp [upsertEntry, findEntry_cons, findEntry_nil]
  | cons x xs ih =>
    unfold upsertEntry
    split
    · rename_i hm
      rw [findEntry_cons, findEntry_cons]
      by_cases hk : e.pid = pid ∧ e.gw = gw
      · rw [if_pos hk, if_pos hk]
      · have hx : ¬ (x.pid = pid ∧ x.gw = gw) := by
          rintro ⟨ha, hb⟩
          exact hk ⟨hm.1.symm.trans ha, hm.2.symm.trans hb⟩
        rw [if_neg hk, if_neg hk, if_neg hx]
    · rename_i hm
      rw [findEntry_cons, ih, findEntry_cons]
      by_cases he : e.pid = pid ∧ e.gw = gw
      · have hx : ¬ (x.pid = pid ∧ x.gw = gw) := by
          rintro ⟨ha, hb⟩
          exact hm ⟨ha.trans he.1.symm, hb.trans he.2.symm⟩
        rw [if_neg hx, if_pos he, if_pos he]
      · rw [if_neg he, if_neg he]

theorem findEntry_processParticipants_preserved (gw : Nat) (f : Nat → Option ℚ)
    (ps : List Nat) (s : List LBEntry) (q : Nat) (v : ℚ) (hq : f q = some v)
    (h : findEntry q gw s = some ⟨q, gw, v⟩) :
    findEntry q gw (processParticipants gw f ps s) = some ⟨q, gw, v⟩ := by
  induction ps generalizing s with
  | nil => exact h
  | cons p ps ih =>
    simp only [processParticipants]
    cases hp : f p with
    | none => exact ih s h
    | some w =>
      show findEntry q gw
          (processParticipants gw f ps (upsertEntry ⟨p, gw, w⟩ s)) =
        some ⟨q, gw, v⟩
      apply ih
      rw [findEntry_upsert]
      by_cases hpe : p = q
      · subst hpe
        rw [hp] at hq
        cases hq
        simp
      · rw [if_neg]
        · exact h
        · rintro ⟨h1, -⟩
          exact hpe h1

theorem processParticipants_idem (gw : Nat) (f : Nat → Option ℚ)
    (ps : List Nat) (s : List LBEntry) :
    processParticipants gw f ps (processParticipants gw f ps s) =
      processParticipants gw f ps s := by
  induction ps generalizing s with
  | nil => rfl
  | cons p ps ih =>
    simp only [processParticipants]
    cases hp : f p with
    | none => exact ih s
    | some v =>
      show processParticipants gw f ps
          (upsertEntry ⟨p, gw, v⟩
            (processParticipants gw f ps (upsertEntry ⟨p, gw, v⟩ s))) =
        processParticipants gw f ps (upsertEntry ⟨p, gw, v⟩ s)
      have h1 : findEntry p gw (upsertEntry ⟨p, gw, v⟩ s) = some ⟨p, gw, v⟩ :=
        upsertEntry_lookup_self ⟨p, gw, v⟩ s
      have h2 : findEntry p gw
          (processParticipants gw f ps (upsertEntry ⟨p, gw, v⟩ s)) =
          some ⟨p, gw, v⟩ :=
        findEntry_processParticipants_preserved gw f ps _ p v hp h1
      rw [upsertEntry_of_found ⟨p, gw, v⟩ _ h2]
      exact ih (upsertEntry ⟨p, gw, v⟩ s)

/-- Claim C7: processing the same gameweek twice with identical inputs leaves
the store exactly as after one call (reprocessing replaces the
(participant, gw) entry), and the cumulative view is the sum of gw_points
over the participant's stored entries. -/
theorem claim_C7 (gw : Nat) (matchStats : List (List PlayerStat))
    (participants : List Nat) (squads : Nat → Squad) (store : List LBEntry) :
    processGameweek gw matchStats participants squads
        (processGameweek gw matchStats participants squads store) =
      processGameweek gw matchStats participants squads store ∧
    ∀ pid, cumulativePoints
        (processGameweek gw matchStats participants squads store) pid =
      (((processGameweek gw matchStats participants squads store).filter
          fun e => decide (e.pid = pid)).map LBEntry.gw_points).sum :=
  ⟨processParticipants_idem gw _ participants store, fun _ => rfl⟩

section SortedTake

variable {α : Type} (f : α → ℚ)

theorem sum_take_le_cons (a : α) :
    ∀ (l : List α), (a :: l).Pairwise (fun x y => f y ≤ f x) →
      ∀ k, k + 1 ≤ l.length →
        ((l.take (k + 1)).map f).sum ≤ f a + ((l.take k).map f).sum := by
  intro l
  induction l generalizing a with
  | nil =>
    intro _ k hk
    simp at hk
  | cons b l2 ih =>
    intro hs k hk
    have hab : f b ≤ f a := (List.pairwise_cons.mp hs).1 b (by simp)
    cases k with
    | zero => simpa using hab
    | succ m =>
      have hs2 : (a :: l2).Pairwise (fun x y => f y ≤ f x) :=
        hs.sublist (by
          refine List.cons_sublist_cons.mpr ?_
          exact List.sublist_cons_self b l2)
      have hm : m + 1 ≤ l2.length := by
        simpa using hk
      have := ih a hs2 m hm
      simp only [List.take_succ_cons, List.map_cons, List.sum_cons]
      linarith

theorem sum_sublist_le_take {t l : List α} (h : t.Sublist l)
    (hs : l.Pairwise (fun x y => f y ≤ f x)) :
    (t.map f).sum ≤ ((l.take t.length).map f).sum := by
  induction h with
  | slnil => simp
  | @cons t l a hsub ih =>
    have hs2 : l.Pairwise (fun x y => f y ≤ f x) := (List.pairwise_cons.mp hs).2
    have hle := ih hs2
    cases ht : t.length with
    | zero =>
      rw [List.length_eq_zero] at ht
      simp [ht]
    | succ m =>
      have hlen : m + 1 ≤ l.length := ht ▸ hsub.length_le
      have hstep := sum_take_le_cons f a l hs m hlen
      rw [ht] at hle
      calc (t.map f).sum ≤ ((l.take (m + 1)).map f).sum := hle
        _ ≤ f a + ((l.take m).map f).sum := hstep
        _ = (((a :: l).take (m + 1)).map f).sum := by
            simp [List.take_succ_cons]
  | @cons₂ t l a hsub ih =>
    have hs2 : l.Pairwise (fun x y => f y ≤ f x) := (List.pairwise_cons.mp hs).2
    have hle := ih hs2
    simp only [List.length_cons, List.take_succ_cons, List.map_cons,
      List.sum_cons]
    linarith

end SortedTake

theorem sortedRole_pairwise (sq : Squad) (scores : String → ℚ) (r : Role) :
    (sortedRole sq scores r).Pairwise
      (fun x y => entryScore scores y ≤ entryScore scores x) := by
  haveI : IsTotal SquadEntry (scoreDescRel scores) := ⟨fun a b => le_total _ _⟩
  haveI : IsTrans SquadEntry (scoreDescRel scores) :=
    ⟨fun _ _ _ hab hbc => le_trans hbc hab⟩
  exact List.sorted_insertionSort (scoreDescRel scores) (roleEntries sq r)

theorem sortedRole_perm (sq : Squad) (scores : String → ℚ) (r : Role) :
    (sortedRole sq scores r).Perm (roleEntries sq r) :=
  List.perm_insertionSort (scoreDescRel scores) (roleEntries sq r)

theorem sortedRole_length (sq : Squad) (scores : String → ℚ) (r : Role) :
    (sortedRole sq scores r).length = roleCount sq r :=
  (sortedRole_perm sq scores r).length_eq

theorem mem_sortedRole {sq : Squad} {scores : String → ℚ} {r : Role}
    {e : SquadEntry} (h : e ∈ sortedRole sq scores r) :
    e.role = r ∧ e.is_IR = false ∧ e ∈ eligibleEntries sq := by
  have hr : e ∈ roleEntries sq r := (sortedRole_perm sq scores r).mem_iff.mp h
  have hee : e ∈ eligibleEntries sq := (List.mem_filter.mp hr).1
  refine ⟨of_decide_eq_true (List.mem_filter.mp hr).2, ?_, hee⟩
  have := (List.mem_filter.mp hee).2
  simpa using this

theorem sum_role_decomp (T : List SquadEntry) (f : SquadEntry → ℚ) :
    (T.map f).sum =
      ((T.filter fun e => decide (e.role = Role.WicketKeeper)).map f).sum +
        ((T.filter fun e => decide (e.role = Role.Batsman)).map f).sum +
        ((T.filter fun e => decide (e.role = Role.AllRounder)).map f).sum +
        ((T.filter fun e => decide (e.role = Role.Bowler)).map f).sum := by
  induction T with
  | nil => simp
  | cons e T ih =>
    cases he : e.role <;>
      simp [List.filter_cons, he, ih] <;> ring

theorem length_role_decomp (T : List SquadEntry) :
    T.length =
      (T.filter fun e => decide (e.role = Role.WicketKeeper)).length +
        (T.filter fun e => decide (e.role = Role.Batsman)).length +
        (T.filter fun e => decide (e.role = Role.AllRounder)).length +
        (T.filter fun e => decide (e.role = Role.Bowler)).length := by
  induction T with
  | nil => simp
  | cons e T ih =>
    cases he : e.role <;>
      simp [List.filter_cons, he, ih] <;> omega

theorem mem_quotaTuples (w b a o : Nat) :
    (w, b, a, o) ∈ quotaTuples ↔ quotaOK w b a o := by
  unfold quotaTuples
  rw [List.mem_filter]
  simp only [List.mem_flatMap, List.mem_map, List.mem_range, decide_eq_true_eq]
  constructor
  · rintro ⟨-, hq⟩
    exact hq
  · intro hq
    have hb : quotaOK w b a o := hq
    unfold quotaOK at hb
    exact ⟨⟨w, by omega, b, by omega, a, by omega, o, by omega, rfl⟩, hq⟩

theorem mem_feasibleTuples (sq : Squad) (w b a o : Nat) :
    (w, b, a, o) ∈ feasibleTuples sq ↔
      quotaOK w b a o ∧ w ≤ roleCount sq .WicketKeeper ∧
        b ≤ roleCount sq .Batsman ∧ a ≤ roleCount sq .AllRounder ∧
        o ≤ roleCount sq .Bowler := by
  unfold feasibleTuples
  rw [List.mem_filter, mem_quotaTuples]
  simp [and_assoc]

theorem quota_exists (n1 n2 n3 n4 : Nat) (h1 : 1 ≤ n1) (h2 : 3 ≤ n2)
    (h3 : 1 ≤ n3) (h4 : 3 ≤ n4)
    (hcap : 11 ≤ min n1 4 + min n2 6 + min n3 4 + min n4 6) :
    ∃ w b a o, quotaOK w b a o ∧ w ≤ n1 ∧ b ≤ n2 ∧ a ≤ n3 ∧ o ≤ n4 := by
  refine ⟨min n1 4, min (min n2 6) (11 - min n1 4 - 4),
    min (min n3 4) (11 - min n1 4 - min (min n2 6) (11 - min n1 4 - 4) - 3),
    11 - min n1 4 - min (min n2 6) (11 - min n1 4 - 4) -
      min (min n3 4) (11 - min n1 4 - min (min n2 6) (11 - min n1 4 - 4) - 3),
    ?_, by omega, by omega, by omega, by omega⟩
  unfold quotaOK
  omega

/-- Number of entries of one role in a lineup. -/
def countRole (l : List SquadEntry) (r : Role) : Nat :=
  l.countP fun e => decide (e.role = r)

theorem tupleLineup_sum (sq : Squad) (scores : String → ℚ)
    (t : Nat × Nat × Nat × Nat) :
    ((tupleLineup sq scores t).map (entryScore scores)).sum =
      tupleValue sq scores t := by
  simp only [tupleLineup, tupleValue, takeScore, List.map_append,
    List.sum_append]

theorem countRole_append (l1 l2 : List SquadEntry) (r : Role) :
    countRole (l1 ++ l2) r = countRole l1 r + countRole l2 r := by
  simp [countRole, List.countP_append]

theorem countRole_take_self (sq : Squad) (scores : String → ℚ) (r : Role)
    (k : Nat) (hk : k ≤ roleCount sq r) :
    countRole ((sortedRole sq scores r).take k) r = k := by
  unfold countRole
  rw [List.countP_eq_length.mpr, List.length_take, sortedRole_length]
  · omega
  · intro e he
    exact decide_eq_true (mem_sortedRole (List.mem_of_mem_take he)).1

theorem countRole_take_other (sq : Squad) (scores : String → ℚ) (r r' : Role)
    (hne : r' ≠ r) (k : Nat) :
    countRole ((sortedRole sq scores r).take k) r' = 0 := by
  unfold countRole
  rw [List.countP_eq_zero]
  intro e he hp
  have h1 : e.role = r := (mem_sortedRole (List.mem_of_mem_take he)).1
  have h2 : e.role = r' := of_decide_eq_true hp
  exact hne (h2 ▸ h1)

/-- Claim C1 (amended): for every squad with at least the minimum eligible
players per role AND enough eligible players to field 11 under the role caps
(the role counts capped at their quota maxima must sum to at least 11),
`select` returns a result of exactly 11 entries whose per-role counts satisfy
the quotas and sum to 11, never choosing IR entries, and whose summed score
is at least that of every other quota-satisfying 11-entry selection from the
eligible pool. -/
theorem claim_C1_amended (sq : Squad) (scores : String → ℚ)
    (h1 : 1 ≤ roleCount sq .WicketKeeper) (h2 : 3 ≤ roleCount sq .Batsman)
    (h3 : 1 ≤ roleCount sq .AllRounder) (h4 : 3 ≤ roleCount sq .Bowler)
    (hcap : 11 ≤ min (roleCount sq .WicketKeeper) 4 +
        min (roleCount sq .Batsman) 6 + min (roleCount sq .AllRounder) 4 +
        min (roleCount sq .Bowler) 6) :
    ∃ res, select sq scores = some res ∧
      res.entries.length = 11 ∧
      quotaOK (countRole res.entries .WicketKeeper)
        (countRole res.entries .Batsman) (countRole res.entries .AllRounder)
        (countRole res.entries .Bowler) ∧
      (∀ e ∈ res.entries, e.is_IR = false) ∧
      res.total = (res.entries.map (entryScore scores)).sum ∧
      ∀ T : List SquadEntry, T.Subperm (eligibleEntries sq) →
        T.length = 11 →
        quotaOK (countRole T .WicketKeeper) (countRole T .Batsman)
          (countRole T .AllRounder) (countRole T .Bowler) →
        (T.map (entryScore scores)).sum ≤ res.total := by
  obtain ⟨w0, b0, a0, o0, hq0, hw0, hb0, ha0, ho0⟩ :=
    quota_exists _ _ _ _ h1 h2 h3 h4 hcap
  have hmem0 : (w0, b0, a0, o0) ∈ feasibleTuples sq :=
    (mem_feasibleTuples sq w0 b0 a0 o0).mpr ⟨hq0, hw0, hb0, ha0, ho0⟩
  have hne : feasibleTuples sq ≠ [] := List.ne_nil_of_mem hmem0
  cases hargmax : (feasibleTuples sq).argmax (tupleValue sq scores) with
  | none => exact absurd (List.argmax_eq_none.mp hargmax) hne
  | some t =>
    obtain ⟨w, b, a, o⟩ := t
    have htmem : (w, b, a, o) ∈ feasibleTuples sq :=
      List.argmax_mem (Option.mem_def.mpr hargmax)
    obtain ⟨hq, hw, hb, ha, ho⟩ := (mem_feasibleTuples sq w b a o).mp htmem
    have hl1 : ((sortedRole sq scores .WicketKeeper).take w).length = w := by
      rw [List.length_take, sortedRole_length]; omega
    have hl2 : ((sortedRole sq scores .Batsman).take b).length = b := by
      rw [List.length_take, sortedRole_length]; omega
    have hl3 : ((sortedRole sq scores .AllRounder).take a).length = a := by
      rw [List.length_take, sortedRole_length]; omega
    have hl4 : ((sortedRole sq scores .Bowler).take o).length = o := by
      rw [List.length_take, sortedRole_length]; omega
    have hqof := hq
    unfold quotaOK at hqof
    refine ⟨⟨tupleLineup sq scores (w, b, a, o),
      ((tupleLineup sq scores (w, b, a, o)).map (entryScore scores)).sum,
      (eligibleEntries sq).filter fun e =>
        decide (e ∉ tupleLineup sq scores (w, b, a, o))⟩,
      ?_, ?_, ?_, ?_, rfl, ?_⟩
    · unfold select
      rw [hargmax]
    · simp only [tupleLineup, List.length_append, hl1, hl2, hl3, hl4]
      omega
    · have hc1 : countRole (tupleLineup sq scores (w, b, a, o))
          Role.WicketKeeper = w := by
        simp only [tupleLineup, countRole_append,
          countRole_take_self sq scores Role.WicketKeeper w hw,
          countRole_take_other sq scores _ _ (by decide : Role.WicketKeeper ≠ Role.Batsman),
          countRole_take_other sq scores _ _ (by decide : Role.WicketKeeper ≠ Role.AllRounder),
          countRole_take_other sq scores _ _ (by decide : Role.WicketKeeper ≠ Role.Bowler)]
        omega
      have hc2 : countRole (tupleLineup sq scores (w, b, a, o))
          Role.Batsman = b := by
        simp only [tupleLineup, countRole_append,
          countRole_take_self sq scores Role.Batsman b hb,
          countRole_take_other sq scores _ _ (by decide : Role.Batsman ≠ Role.WicketKeeper),
          countRole_take_other sq scores _ _ (by decide : Role.Batsman ≠ Role.AllRounder),
          countRole_take_other sq scores _ _ (by decide : Role.Batsman ≠ Role.Bowler)]
        omega
      have hc3 : countRole (tupleLineup sq scores (w, b, a, o))
          Role.AllRounder = a := by
        simp only [tupleLineup, countRole_append,
          countRole_take_self sq scores Role.AllRounder a ha,
          countRole_take_other sq scores _ _ (by decide : Role.AllRounder ≠ Role.WicketKeeper),
          countRole_take_other sq scores _ _ (by decide : Role.AllRounder ≠ Role.Batsman),
          countRole_take_other sq scores _ _ (by decide : Role.AllRounder ≠ Role.Bowler)]
        omega
      have hc4 : countRole (tupleLineup sq scores (w, b, a, o))
          Role.Bowler = o := by
        simp only [tupleLineup, countRole_append,
          countRole_take_self sq scores Role.Bowler o ho,
          countRole_take_other sq scores _ _ (by decide : Role.Bowler ≠ Role.WicketKeeper),
          countRole_take_other sq scores _ _ (by decide : Role.Bowler ≠ Role.Batsman),
          countRole_take_other sq scores _ _ (by decide : Role.Bowler ≠ Role.AllRounder)]
        omega
      rw [hc1, hc2, hc3, hc4]
      exact hq
    · intro e he
      simp only [tupleLineup, List.mem_append] at he
      rcases he with ((he | he) | he) | he <;>
        exact (mem_sortedRole (List.mem_of_mem_take he)).2.1
    · intro T hsub hlen hquota
      have hfil : ∀ r : Role,
          (T.filter fun e => decide (e.role = r)).Subperm (roleEntries sq r) :=
        fun r => List.Subperm.filter _ hsub
      have hkey : ∀ r : Role,
          ((T.filter fun e => decide (e.role = r)).map (entryScore scores)).sum ≤
            takeScore scores (sortedRole sq scores r)
              (T.filter fun e => decide (e.role = r)).length := by
        intro r
        obtain ⟨Tr', hperm, hsl⟩ :=
          (hfil r).trans (sortedRole_perm sq scores r).symm.subperm
        have hsum : (Tr'.map (entryScore scores)).sum =
            ((T.filter fun e => decide (e.role = r)).map (entryScore scores)).sum :=
          (hperm.map (entryScore scores)).sum_eq
        have hlen' : Tr'.length =
            (T.filter fun e => decide (e.role = r)).length := hperm.length_eq
        have hmain := sum_sublist_le_take (entryScore scores) hsl
          (sortedRole_pairwise sq scores r)
        rw [hsum, hlen'] at hmain
        exact hmain
      have hklen : ∀ r : Role,
          (T.filter fun e => decide (e.role = r)).length ≤ roleCount sq r :=
        fun r => (hfil r).length_le
      have hcnt : ∀ r : Role, countRole T r =
          (T.filter fun e => decide (e.role = r)).length := by
        intro r
        unfold countRole
        exact List.countP_eq_length_filter _ _
      have hkfeas : ((T.filter fun e => decide (e.role = Role.WicketKeeper)).length,
          (T.filter fun e => decide (e.role = Role.Batsman)).length,
          (T.filter fun e => decide (e.role = Role.AllRounder)).length,
          (T.filter fun e => decide (e.role = Role.Bowler)).length) ∈
            feasibleTuples sq := by
        rw [mem_feasibleTuples]
        refine ⟨?_, hklen _, hklen _, hklen _, hklen _⟩
        rw [← hcnt, ← hcnt, ← hcnt, ← hcnt]
        exact hquota
      have hmax := List.le_of_mem_argmax hkfeas (Option.mem_def.mpr hargmax)
      calc (T.map (entryScore scores)).sum
          = ((T.filter fun e => decide (e.role = Role.WicketKeeper)).map
                (entryScore scores)).sum +
              ((T.filter fun e => decide (e.role = Role.Batsman)).map
                (entryScore scores)).sum +
              ((T.filter fun e => decide (e.role = Role.AllRounder)).map
                (entryScore scores)).sum +
              ((T.filter fun e => decide (e.role = Role.Bowler)).map
                (entryScore scores)).sum := sum_role_decomp T _
        _ ≤ tupleValue sq scores
              ((T.filter fun e => decide (e.role = Role.WicketKeeper)).length,
                (T.filter fun e => decide (e.role = Role.Batsman)).length,
                (T.filter fun e => decide (e.role = Role.AllRounder)).length,
                (T.filter fun e => decide (e.role = Role.Bowler)).length) := by
              unfold tupleValue
              have k1 := hkey Role.WicketKeeper
              have k2 := hkey Role.Batsman
              have k3 := hkey Role.AllRounder
              have k4 := hkey Role.Bowler
              exact add_le_add (add_le_add (add_le_add k1 k2) k3) k4
        _ ≤ tupleValue sq scores (w, b, a, o) := hmax
        _ = ((tupleLineup sq scores (w, b, a, o)).map (entryScore scores)).sum :=
              (tupleLineup_sum sq scores (w, b, a, o)).symm

/-- A squad of 8 eligible players meeting every per-role minimum
(1 WicketKeeper, 3 Batsmen, 1 AllRounder, 3 Bowlers, none IR). -/
def squadEight : Squad :=
  [⟨"wk1", .WicketKeeper, false⟩, ⟨"bat1", .Batsman, false⟩,
   ⟨"bat2", .Batsman, false⟩, ⟨"bat3", .Batsman, false⟩,
   ⟨"ar1", .AllRounder, false⟩, ⟨"bo1", .Bowler, false⟩,
   ⟨"bo2", .Bowler, false⟩, ⟨"bo3", .Bowler, false⟩]

/-- Claim C1 as stated is false: `squadEight` has at least the minimum
eligible players in each role, yet no quota tuple is feasible (8 players
cannot field 11) and `select` returns `none` rather than an 11-entry
Best11Result. -/
theorem claim_C1_counterexample :
    1 ≤ roleCount squadEight .WicketKeeper ∧
    3 ≤ roleCount squadEight .Batsman ∧
    1 ≤ roleCount squadEight .AllRounder ∧
    3 ≤ roleCount squadEight .Bowler ∧
    select squadEight (fun _ => 0) = none :=
  ⟨by decide, by decide, by decide, by decide, rfl⟩

/-- The Scenario C squad: 12 eligible players, none IR. -/
def squadTwelve : Squad :=
  [⟨"wk1", .WicketKeeper, false⟩, ⟨"wk2", .WicketKeeper, false⟩,
   ⟨"bat1", .Batsman, false⟩, ⟨"bat2", .Batsman, false⟩,
   ⟨"bat3", .Batsman, false⟩, ⟨"bat4", .Batsman, false⟩,
   ⟨"ar1", .AllRounder, false⟩, ⟨"ar2", .AllRounder, false⟩,
   ⟨"bo1", .Bowler, false⟩, ⟨"bo2", .Bowler, false⟩,
   ⟨"bo3", .Bowler, false⟩, ⟨"bo4", .Bowler, false⟩]

/-- The Scenario C score mapping. -/
def scoresTwelve : String → ℚ := fun nm =>
  if nm = "wk1" then 40 else if nm = "wk2" then 35
  else if nm = "bat1" then 50 else if nm = "bat2" then 48
  else if nm = "bat3" then 30 else if nm = "bat4" then 10
  else if nm = "ar1" then 60 else if nm = "ar2" then 20
  else if nm = "bo1" then 45 else if nm = "bo2" then 44
  else if nm = "bo3" then 40 else if nm = "bo4" then 38 else 0

/-- Witness for claim C1 (amended) at the Scenario C squad of 12 eligible
players: all hypotheses hold concretely and `select` yields an optimal
11-player lineup. -/
theorem claim_C1_witness :
    ∃ res, select squadTwelve scoresTwelve = some res ∧
      res.entries.length = 11 ∧
      quotaOK (countRole res.entries .WicketKeeper)
        (countRole res.entries .Batsman) (countRole res.entries .AllRounder)
        (countRole res.entries .Bowler) ∧
      (∀ e ∈ res.entries, e.is_IR = false) ∧
      res.total = (res.entries.map (entryScore scoresTwelve)).sum ∧
      ∀ T : List SquadEntry, T.Subperm (eligibleEntries squadTwelve) →
        T.length = 11 →
        quotaOK (countRole T .WicketKeeper) (countRole T .Batsman)
          (countRole T .AllRounder) (countRole T .Bowler) →
        (T.map (entryScore scoresTwelve)).sum ≤ res.total :=
  claim_C1_amended squadTwelve scoresTwelve (by decide) (by decide) (by decide)
    (by decide) (by decide)

end Cricket
